import Mathlib

/-!
Verification of the GhOst streaming-completion client and agent orchestrator.

This file shallowly embeds the Go sources under `internal/llm` (`client.go`,
`messages.go`, `agent.go`) and `internal/tools`, and proves the behavioural
properties stated in the specification against that embedding.

External effects (HTTP transport, JSON unmarshalling, tool execution) are
modelled as explicit environment data: a request environment records what the
transport and the JSON decoder would have produced, and tool execution is an
oracle from tool name and argument string to a Go-style `(string, error)`
result.  All control flow, string formatting and state manipulation is
translated directly from the source.
-/

namespace GhOst

/-! ## Data model (client.go / messages.go)

`ToolCall`, `ToolCallDelta` and `Message` mirror the Go structs of the same
names; the nested `Function` struct of `ToolCall` is flattened into the
`functionName` / `functionArguments` fields, matching the spec's data model. -/

/-- `ToolCall` from client.go: a complete tool call. -/
structure ToolCall where
  id : String
  type : String
  functionName : String
  functionArguments : String
deriving Repr, DecidableEq

/-- The zero value of the Go `ToolCall` struct (all fields empty). -/
def ToolCall.empty : ToolCall :=
  { id := "", type := "", functionName := "", functionArguments := "" }

/-- `ToolCallDelta` from client.go: a chunk of a tool call from the stream. -/
structure ToolCallDelta where
  index : Nat
  id : String
  type : String
  functionName : String
  functionArguments : String
deriving Repr, DecidableEq

/-- `Message` from client.go / messages.go: one entry of the conversation. -/
structure Message where
  role : String
  content : String
  toolCalls : List ToolCall
  toolCallId : String
deriving Repr, DecidableEq

/-! ## Tool-call delta aggregation (client.go, runCompletionStream lines 296-311) -/

/-- Reading slot `i` of the builder array; out-of-range reads default to the
zero value, which is what the freshly grown Go slice slots contain. -/
def slot (tcs : List ToolCall) (i : Nat) : ToolCall :=
  (tcs[i]?).getD ToolCall.empty

/-- client.go lines 298-301: `if len(toolCalls) <= toolCallDelta.Index`, append
`toolCallDelta.Index - len(toolCalls) + 1` zero-valued `ToolCall`s. -/
def growTo (tcs : List ToolCall) (idx : Nat) : List ToolCall :=
  if tcs.length ≤ idx then tcs ++ List.replicate (idx + 1 - tcs.length) ToolCall.empty
  else tcs

/-- client.go lines 303-310: overwrite `ID`/`Type` when the delta carries a
non-empty value, and append the name and argument fragments. -/
def updateCall (c : ToolCall) (d : ToolCallDelta) : ToolCall :=
  { id := if d.id = "" then c.id else d.id
    type := if d.type = "" then c.type else d.type
    functionName := c.functionName ++ d.functionName
    functionArguments := c.functionArguments ++ d.functionArguments }

/-- One iteration of the `for _, toolCallDelta := range choice.Delta.ToolCalls`
loop (client.go lines 297-311): grow the array, then update the addressed slot
in place. -/
def applyDelta (tcs : List ToolCall) (d : ToolCallDelta) : List ToolCall :=
  let g := growTo tcs d.index
  g.set d.index (updateCall (slot g d.index) d)

/-- The aggregation loop over a batch of deltas (client.go lines 297-311). -/
def aggregateDeltas (tcs : List ToolCall) (ds : List ToolCallDelta) : List ToolCall :=
  ds.foldl applyDelta tcs

/-- Ordered concatenation of the argument fragments addressed to index `i`. -/
def concatArgsAt (i : Nat) : List ToolCallDelta → String
  | [] => ""
  | d :: ds => (if d.index = i then d.functionArguments else "") ++ concatArgsAt i ds

/-- Ordered concatenation of the name fragments addressed to index `i`. -/
def concatNamesAt (i : Nat) : List ToolCallDelta → String
  | [] => ""
  | d :: ds => (if d.index = i then d.functionName else "") ++ concatNamesAt i ds

/-- Do consecutive delta indices only stay equal or grow (the "strictly
increasing or repeated indices" shape of the spec's aggregation property)? -/
def monotoneIndices : List ToolCallDelta → Bool
  | d1 :: d2 :: ds => d1.index ≤ d2.index && monotoneIndices (d2 :: ds)
  | _ => true

/-! ## Streaming events (client.go / messages.go TUI message types)

`Event` collects the values the client pushes on its `chan tea.Msg`:
`StreamStartMsg`, `StreamContentMsg`, `StreamEndMsg`, `ErrorMsg`, and (for the
agent-era client) `AssistantToolCallMsg`. -/

inductive Event where
  | streamStart
  | streamContent (content : String)
  | streamEnd
  | errorMsg (e : String)
  | assistantToolCall (message : Message)
deriving Repr, DecidableEq

/-- `StreamChoice` from client.go: one choice of a streaming chunk, carrying
the delta content, the delta tool calls and the finish reason. -/
structure StreamChoice where
  deltaContent : String
  deltaToolCalls : List ToolCallDelta
  finishReason : String
deriving Repr, DecidableEq

/-- `StreamCompletionResponse` from client.go. -/
structure StreamCompletionResponse where
  choices : List StreamChoice
deriving Repr, DecidableEq

/-- One line handed back by the buffered reader, together with the result that
`json.Unmarshal` would produce on its stripped `data: ` payload (`none` models
a payload that fails to parse).  The JSON decoder is external; everything else
about the line is processed by the translated source code. -/
structure ReadLine where
  raw : String
  parsed : Option StreamCompletionResponse
deriving Repr, DecidableEq

/-- How the byte stream ends once all lines are consumed: a clean EOF or a
mid-stream read failure carrying an error text. -/
inductive ReadEnd where
  | eof
  | readError (e : String)
deriving Repr, DecidableEq

/-- What the transport produced for one request, as observed by
`runCompletionStream` (client.go lines 222-251): a marshalling failure, a
request-construction failure, a transport failure, or an HTTP response with
its status code, its whole body as text (read only on the non-200 path) and
its body as a line sequence (read only on the 200 path). -/
inductive SetupResult where
  | marshalError (e : String)
  | newRequestError (e : String)
  | doError (e : String)
  | response (status : Nat) (errBody : String) (lines : List ReadLine) (readEnd : ReadEnd)
deriving Repr, DecidableEq

/-- The state reached when the read loop of client.go lines 260-314 exits:
the content events emitted (in order), the aggregated tool-call builders, the
last finish reason seen, and whether the loop exited through the `[DONE]`
sentinel (as opposed to running out of input). -/
structure LoopResult where
  events : List Event
  toolCalls : List ToolCall
  finishReason : String
  sawDone : Bool
deriving Repr, DecidableEq

/-- Go's `strings.TrimSpace` as an operation on the line's rune sequence:
remove leading and trailing whitespace. -/
def trimSpace (cs : List Char) : List Char :=
  ((cs.dropWhile Char.isWhitespace).reverse.dropWhile Char.isWhitespace).reverse

/-- The read loop of client.go lines 260-314, with Go's string operations
(`strings.HasPrefix`, `strings.TrimPrefix`, `strings.TrimSpace`) carried out
on the line's rune sequence.  Lines without the `data: ` prefix are skipped;
the payload is the line with the six-character prefix dropped and surrounding
whitespace removed; `[DONE]` breaks the loop; unparseable payloads and
payloads without choices are skipped; otherwise the finish reason is
overwritten, a non-empty content fragment is emitted, and a non-empty delta
batch is aggregated. -/
def processLines (tcs : List ToolCall) (fin : String) : List ReadLine → LoopResult
  | [] => { events := [], toolCalls := tcs, finishReason := fin, sawDone := false }
  | l :: rest =>
    if "data: ".data.isPrefixOf l.raw.data then
      if trimSpace (l.raw.data.drop 6) = "[DONE]".data then
        { events := [], toolCalls := tcs, finishReason := fin, sawDone := true }
      else
        match l.parsed with
        | none => processLines tcs fin rest
        | some resp =>
          match resp.choices with
          | [] => processLines tcs fin rest
          | choice :: _ =>
            let evs := if choice.deltaContent = "" then []
                       else [Event.streamContent choice.deltaContent]
            let tcs1 := if choice.deltaToolCalls.isEmpty then tcs
                        else aggregateDeltas tcs choice.deltaToolCalls
            let r := processLines tcs1 choice.finishReason rest
            { r with events := evs ++ r.events }
    else processLines tcs fin rest

/-- Go's `(string, error)` result of running a tool's `Execute`. -/
inductive ExecResult where
  | ok (result : String)
  | err (e : String)
deriving Repr, DecidableEq

/-- The client's effectful surroundings: which names the `toolRegistry` map
contains, and what `Execute` returns for a given name and argument string. -/
structure ClientEnv where
  registry : String → Bool
  exec : String → String → ExecResult

/-- The tool-role message the client appends for one executed call
(client.go lines 334-345): the `Execute` result on success, or
`"Error: <err>"` on failure. -/
def clientToolResult (env : ClientEnv) (tc : ToolCall) : Message :=
  let result :=
    match env.exec tc.functionName tc.functionArguments with
    | .ok r => r
    | .err e => "Error: " ++ e
  { role := "tool", content := result, toolCalls := [], toolCallId := tc.id }

/-- The client's internal tool-execution loop (client.go lines 327-346):
a name missing from the registry is logged and skipped (`continue`, no message
appended); a registered call always contributes one tool-role message. -/
def execToolCalls (env : ClientEnv) (msgs : List Message) : List ToolCall → List Message
  | [] => msgs
  | tc :: rest =>
    if env.registry tc.functionName then
      execToolCalls env (msgs ++ [clientToolResult env tc]) rest
    else
      execToolCalls env msgs rest

/-- The non-200 error text of client.go line 249. -/
def statusErrorText (status : Nat) (body : String) : String :=
  "API request failed with status " ++ toString status ++ ": " ++ body

/-- `runCompletionStream` of client.go lines 214-354, as the list of events it
pushes on the channel.  The recursion of line 349 (re-issuing the request with
the tool results appended) consumes the next `SetupResult` of the environment
list; the real program always receives some transport outcome for every
request it issues, so the empty-environment case is unreachable and returns no
events. -/
def runCompletionStream (env : ClientEnv) : List SetupResult → List Message → List Event
  | [], _ => []
  | setup :: future, messages =>
    match setup with
    | .marshalError e => [.errorMsg ("error marshalling request body: " ++ e)]
    | .newRequestError e => [.errorMsg ("error creating request: " ++ e)]
    | .doError e => [.errorMsg ("error making request: " ++ e)]
    | .response status errBody lines readEnd =>
      if status ≠ 200 then [.errorMsg (statusErrorText status errBody)]
      else
        let r := processLines [] "" lines
        let endEvents :=
          if r.sawDone then []
          else
            match readEnd with
            | .eof => []
            | .readError e => [Event.errorMsg ("error reading stream: " ++ e)]
        if r.finishReason = "tool_calls" then
          let assistantMessage : Message :=
            { role := "assistant", content := "", toolCalls := r.toolCalls, toolCallId := "" }
          let newMessages := execToolCalls env (messages ++ [assistantMessage]) r.toolCalls
          [Event.streamStart] ++ r.events ++ endEvents
            ++ runCompletionStream env future newMessages
        else
          [Event.streamStart] ++ r.events ++ endEvents ++ [Event.streamEnd]

/-- Modelled from the spec: the agent-era streaming client, whose Go source is
not among the provided files — only its message declarations
(`AssistantToolCallMsg`, messages.go lines 92-95) and its callers (the agent's
`HandleToolCallRequest` and the TUI's `case llm.AssistantToolCallMsg`) are.
Per spec §4.1 it shares the setup-failure handling and read loop of the
provided client, but instead of executing tools itself it concludes by
emitting, when one or more tool-call builders were populated, exactly one
`AssistantToolCallRequest` carrying a synthetic assistant message whose
`toolCalls` is the aggregated array and whose content is empty — and then,
unconditionally, `StreamEnd`. -/
def runCompletionStreamSpec (setup : SetupResult) : List Event :=
  match setup with
  | .marshalError e => [.errorMsg ("error marshalling request body: " ++ e)]
  | .newRequestError e => [.errorMsg ("error creating request: " ++ e)]
  | .doError e => [.errorMsg ("error making request: " ++ e)]
  | .response status errBody lines readEnd =>
    if status ≠ 200 then [.errorMsg (statusErrorText status errBody)]
    else
      let r := processLines [] "" lines
      let endEvents :=
        if r.sawDone then []
        else
          match readEnd with
          | .eof => []
          | .readError e => [Event.errorMsg ("error reading stream: " ++ e)]
      let toolEvents :=
        if r.toolCalls.isEmpty then []
        else
          [Event.assistantToolCall
            { role := "assistant", content := "", toolCalls := r.toolCalls, toolCallId := "" }]
      [Event.streamStart] ++ r.events ++ endEvents ++ toolEvents ++ [Event.streamEnd]

/-- Does a setup attempt fall in the fatal failure class of client.go lines
222-251 (serialization, request construction, transport, or a status other
than 200)? -/
def isSetupFailure : SetupResult → Bool
  | .marshalError _ => true
  | .newRequestError _ => true
  | .doError _ => true
  | .response status _ _ _ => status ≠ 200

/-- Recognizer for `AssistantToolCallMsg` events. -/
def isAssistantToolCallEvent : Event → Bool
  | .assistantToolCall _ => true
  | _ => false

/-- Recognizer for `ErrorMsg` events. -/
def isErrorEvent : Event → Bool
  | .errorMsg _ => true
  | _ => false

/-! ## Agent orchestrator (messages.go, agent lines 110-308)

The agent embedded here is the confirmation-aware one appended to
`messages.go` (the `Agent` of `agent.go` differs only in returning `nil`
instead of a `ConfirmationRequiredMsg` command and in appending — rather than
attaching to — the trailing assistant message in `HandleToolCallRequest`).
The tool registry is modelled as a partial map from tool name to the tool's
statically declared `RequiresConfirmation` flag, and `Execute` as an oracle in
the environment. -/

/-- What the agent reads off a registered tool besides executing it: its
`RequiresConfirmation` flag (fs.go: true for `write_file` and `replace`;
shell tool source: true for `run_shell_command`; false for the others). -/
structure ToolSpec where
  requiresConfirmation : Bool
deriving Repr, DecidableEq

/-- The agent's effectful surroundings: the `toolRegistry` map and the
`Execute` oracle. -/
structure AgentEnv where
  registry : String → Option ToolSpec
  exec : String → String → ExecResult

/-- The mutable state of `Agent` (messages.go lines 124-137); the `client`,
`modelName` and `toolRegistry` fields live in `AgentEnv`. -/
structure Agent where
  messages : List Message
  pendingToolCalls : List ToolCall
  confirmingToolCall : ToolCall
  isConfirming : Bool
  lastStreamedContent : String
deriving Repr, DecidableEq

/-- `ToolResultMsg` (messages.go lines 101-104). -/
structure ToolResultMsg where
  toolCallId : String
  result : String
deriving Repr, DecidableEq

/-- The `tea.Cmd` values the agent hands back to the TUI: re-invoking the
streaming client with the current history, an `ErrorMsg` producer, a
`ConfirmationRequiredMsg` producer, or the `executeTool` closure, identified
by the `ToolResultMsg` it produces when run. -/
inductive AgentCmd where
  | completionStream (messages : List Message)
  | errorMsg (e : String)
  | confirmationRequired (toolCall : ToolCall)
  | toolResult (msg : ToolResultMsg)
deriving Repr, DecidableEq

/-- `executeTool` (messages.go lines 295-308): run `Execute` and turn a
failure into the textual result `"Error executing tool <name>: <err>"`.  The
Go code looks the tool up with `tool, _ := a.toolRegistry[...]` and would
crash on a miss; callers only reach it for registered names. -/
def executeTool (env : AgentEnv) (toolCall : ToolCall) : ToolResultMsg :=
  let result :=
    match env.exec toolCall.functionName toolCall.functionArguments with
    | .ok r => r
    | .err e => "Error executing tool " ++ toolCall.functionName ++ ": " ++ e
  { toolCallId := toolCall.id, result := result }

/-- `processToolCalls` (messages.go lines 269-293): with an empty queue,
re-invoke the streaming client on the current history; otherwise inspect the
head of the queue without removing it — a registry miss returns an error
command with the state untouched, a confirmation-requiring tool records
itself as `confirmingToolCall` (head still queued), and any other tool is
popped and executed. -/
def processToolCalls (env : AgentEnv) (a : Agent) : Agent × AgentCmd :=
  match a.pendingToolCalls with
  | [] => (a, .completionStream a.messages)
  | toolCall :: rest =>
    match env.registry toolCall.functionName with
    | none => (a, .errorMsg ("tool " ++ toolCall.functionName ++ " not found in registry"))
    | some tool =>
      if tool.requiresConfirmation then
        ({ a with confirmingToolCall := toolCall, isConfirming := true },
         .confirmationRequired toolCall)
      else
        ({ a with pendingToolCalls := rest }, .toolResult (executeTool env toolCall))

/-- `HandleToolResult` (messages.go lines 243-250): append a tool-role message
carrying the result, then continue processing the queue. -/
def HandleToolResult (env : AgentEnv) (a : Agent) (toolCallID result : String) :
    Agent × AgentCmd :=
  processToolCalls env
    { a with messages := a.messages ++
        [{ role := "tool", content := result, toolCalls := [], toolCallId := toolCallID }] }

/-- `HandleConfirmation` (messages.go lines 253-265): clear the confirming
flag, pop the queue head (`a.pendingToolCalls[1:]` — the Go slice expression
presumes a non-empty queue; `List.tail` totalizes it), then either execute the
remembered call or synthesize the denial result and feed it through
`HandleToolResult`. -/
def HandleConfirmation (env : AgentEnv) (a : Agent) (confirmed : Bool) : Agent × AgentCmd :=
  let toolCall := a.confirmingToolCall
  let a1 := { a with isConfirming := false, pendingToolCalls := a.pendingToolCalls.tail }
  if confirmed then (a1, .toolResult (executeTool env toolCall))
  else HandleToolResult env a1 toolCall.id
        ("User denied execution of tool: " ++ toolCall.functionName)

/-- `HandleUserInput` (messages.go lines 206-209): append the user message and
start a completion stream on the updated history. -/
def HandleUserInput (a : Agent) (input : String) : Agent × AgentCmd :=
  let a1 := { a with messages := a.messages ++
      [{ role := "user", content := input, toolCalls := [], toolCallId := "" }] }
  (a1, .completionStream a1.messages)

/-- `HandleStreamStart` (messages.go lines 212-215): reset the live buffer and
append an empty assistant message as the streaming target. -/
def HandleStreamStart (a : Agent) : Agent :=
  { a with lastStreamedContent := "",
           messages := a.messages ++
             [{ role := "assistant", content := "", toolCalls := [], toolCallId := "" }] }

/-- The zero value of the Go `Message` struct, backing the total read of
`a.messages[len(a.messages)-1]` (the Go code only indexes under a length
guard). -/
def msgDefault : Message := { role := "", content := "", toolCalls := [], toolCallId := "" }

/-- `HandleStreamContent` (messages.go lines 218-224): when the history is
non-empty, append the chunk to the content of the last message in place and
mirror it into the live buffer. -/
def HandleStreamContent (a : Agent) (content : String) : Agent :=
  if 0 < a.messages.length then
    let last := a.messages.getD (a.messages.length - 1) msgDefault
    let updated := { last with content := last.content ++ content }
    { a with messages := a.messages.set (a.messages.length - 1) updated,
             lastStreamedContent := updated.content }
  else a

/-- `HandleToolCallRequest` (messages.go lines 227-240): attach the incoming
tool calls to the trailing assistant message (the Go guard is
`len(a.messages) > 0 && a.messages[len-1].Role == "assistant"`), otherwise
append the carried message; then load the queue, clear the live buffer and
start processing. -/
def HandleToolCallRequest (env : AgentEnv) (a : Agent) (msg : Message) : Agent × AgentCmd :=
  let a1 :=
    if 0 < a.messages.length
        ∧ (a.messages.getD (a.messages.length - 1) msgDefault).role = "assistant" then
      let last := a.messages.getD (a.messages.length - 1) msgDefault
      let attached := { last with toolCalls := msg.toolCalls }
      { a with messages := a.messages.set (a.messages.length - 1) attached }
    else { a with messages := a.messages ++ [msg] }
  let a2 := { a1 with pendingToolCalls := msg.toolCalls, lastStreamedContent := "" }
  processToolCalls env a2

/-- The orchestrator operations of the event loop, as dispatched by the TUI's
`Update` on the corresponding messages. -/
inductive AgentOp where
  | userInput (s : String)
  | streamStart
  | streamContent (s : String)
  | toolCallRequest (m : Message)
  | toolResult (id result : String)
  | confirmation (confirmed : Bool)

/-- Apply one orchestrator operation to the agent state (the returned command
does not touch the state). -/
def applyOp (env : AgentEnv) (a : Agent) : AgentOp → Agent
  | .userInput s => (HandleUserInput a s).1
  | .streamStart => HandleStreamStart a
  | .streamContent s => HandleStreamContent a s
  | .toolCallRequest m => (HandleToolCallRequest env a m).1
  | .toolResult id r => (HandleToolResult env a id r).1
  | .confirmation b => (HandleConfirmation env a b).1

/-- How a single history entry may be mutated in place: role and
`toolCallId` are frozen and content only ever grows (the spec additionally
allows `toolCalls` to be attached, so that field is unconstrained). -/
def MessageEvolves (old new : Message) : Prop :=
  new.role = old.role ∧ new.toolCallId = old.toolCallId
    ∧ old.content.data <+: new.content.data

/-- Append-only evolution of conversation history: nothing is removed, all
entries but the last are preserved verbatim, and the last entry may only
evolve per `MessageEvolves`. -/
def HistoryExtends (old new : List Message) : Prop :=
  old.length ≤ new.length
  ∧ (∀ i, i + 1 < old.length → new[i]? = old[i]?)
  ∧ (∀ m, old[old.length - 1]? = some m →
      ∃ m', new[old.length - 1]? = some m' ∧ MessageEvolves m m')

/-! ## Aggregation lemmas -/

theorem slot_out_of_range (tcs : List ToolCall) (i : Nat) (h : tcs.length ≤ i) :
    slot tcs i = ToolCall.empty := by
  simp [slot, List.getElem?_eq_none h]

theorem growTo_length (tcs : List ToolCall) (idx : Nat) (h : tcs.length ≤ idx) :
    (growTo tcs idx).length = idx + 1 := by
  simp only [growTo, if_pos h, List.length_append, List.length_replicate]
  omega

theorem growTo_length_ge (tcs : List ToolCall) (idx : Nat) :
    idx < (growTo tcs idx).length := by
  by_cases h : tcs.length ≤ idx
  · rw [growTo_length tcs idx h]; omega
  · simp only [growTo, if_neg h]; omega

theorem slot_growTo (tcs : List ToolCall) (idx i : Nat) :
    slot (growTo tcs idx) i = slot tcs i := by
  unfold growTo
  by_cases h : tcs.length ≤ idx
  · rw [if_pos h]
    unfold slot
    rw [List.getElem?_append]
    by_cases hi : i < tcs.length
    · rw [if_pos hi]
    · rw [if_neg hi, List.getElem?_replicate]
      rw [List.getElem?_eq_none (by omega)]
      by_cases hlt : i - tcs.length < idx + 1 - tcs.length <;> simp [hlt]
  · rw [if_neg h]

theorem slot_applyDelta (tcs : List ToolCall) (d : ToolCallDelta) (i : Nat) :
    slot (applyDelta tcs d) i =
      if i = d.index then updateCall (slot tcs d.index) d else slot tcs i := by
  by_cases h : i = d.index
  · subst h
    rw [if_pos rfl]
    show ((growTo tcs d.index).set d.index
        (updateCall (slot (growTo tcs d.index) d.index) d))[d.index]?.getD ToolCall.empty = _
    rw [List.getElem?_set_self (growTo_length_ge tcs d.index), Option.getD_some, slot_growTo]
  · rw [if_neg h]
    show ((growTo tcs d.index).set d.index
        (updateCall (slot (growTo tcs d.index) d.index) d))[i]?.getD ToolCall.empty = _
    rw [List.getElem?_set_ne (fun hn => h hn.symm)]
    exact slot_growTo tcs d.index i

theorem slot_aggregateDeltas (ds : List ToolCallDelta) (tcs : List ToolCall) (i : Nat) :
    (slot (aggregateDeltas tcs ds) i).functionArguments
        = (slot tcs i).functionArguments ++ concatArgsAt i ds
    ∧ (slot (aggregateDeltas tcs ds) i).functionName
        = (slot tcs i).functionName ++ concatNamesAt i ds := by
  induction ds generalizing tcs with
  | nil => simp [aggregateDeltas, concatArgsAt, concatNamesAt]
  | cons d ds ih =>
    rw [show aggregateDeltas tcs (d :: ds) = aggregateDeltas (applyDelta tcs d) ds from rfl]
    obtain ⟨iha, ihn⟩ := ih (applyDelta tcs d)
    rw [iha, ihn]
    simp only [slot_applyDelta]
    by_cases h : i = d.index
    · subst h
      simp [concatArgsAt, concatNamesAt, updateCall, String.append_assoc]
    · have h2 : ¬ d.index = i := fun hh => h hh.symm
      simp [concatArgsAt, concatNamesAt, if_neg h, if_neg h2]


/-! ## Read-loop lemmas -/

theorem processLines_events_content (lines : List ReadLine) (tcs : List ToolCall)
    (fin : String) :
    ∀ e ∈ (processLines tcs fin lines).events, ∃ s, e = Event.streamContent s := by
  induction lines generalizing tcs fin with
  | nil => simp [processLines]
  | cons l rest ih =>
    intro e he
    rw [processLines] at he
    split at he
    · split at he
      · simp at he
      · split at he
        · exact ih tcs fin e he
        · split at he
          · exact ih tcs fin e he
          · simp only [List.mem_append] at he
            rcases he with hin | hin
            · split at hin
              · simp at hin
              · simp only [List.mem_singleton] at hin
                exact ⟨_, hin⟩
            · exact ih _ _ e hin
    · exact ih tcs fin e he

theorem processLines_events_countP (lines : List ReadLine) (tcs : List ToolCall)
    (fin : String) (p : Event → Bool) (hp : ∀ s, p (Event.streamContent s) = false) :
    (processLines tcs fin lines).events.countP p = 0 := by
  rw [List.countP_eq_zero]
  intro e he
  obtain ⟨s, rfl⟩ := processLines_events_content lines tcs fin e he
  simp [hp]

/-! ## Claim C1: tool-call delta aggregation -/

/-- C1: for every delta sequence with monotone (strictly increasing or
repeated) indices, slot `i` of the aggregated array carries exactly the
ordered concatenation of the argument fragments (and name fragments)
addressed to index `i`; and a delta whose index exceeds the array length grows
the array to `index + 1` slots, the new slots below the addressed one being
the empty `ToolCall`. -/
theorem c1_delta_aggregation (ds : List ToolCallDelta)
    (_hmono : monotoneIndices ds = true) :
    (∀ i : Nat,
        (slot (aggregateDeltas [] ds) i).functionArguments = concatArgsAt i ds
      ∧ (slot (aggregateDeltas [] ds) i).functionName = concatNamesAt i ds)
    ∧ (∀ (tcs : List ToolCall) (d : ToolCallDelta), tcs.length < d.index →
        (applyDelta tcs d).length = d.index + 1
      ∧ ∀ j, tcs.length ≤ j → j < d.index → slot (applyDelta tcs d) j = ToolCall.empty) := by
  refine ⟨?_, ?_⟩
  · intro i
    obtain ⟨ha, hn⟩ := slot_aggregateDeltas ds [] i
    refine ⟨?_, ?_⟩
    · rw [ha]
      simp [slot, ToolCall.empty]
    · rw [hn]
      simp [slot, ToolCall.empty]
  · intro tcs d hlt
    refine ⟨?_, ?_⟩
    · show ((growTo tcs d.index).set d.index _).length = _
      rw [List.length_set, growTo_length tcs d.index (le_of_lt hlt)]
    · intro j hj1 hj2
      rw [slot_applyDelta, if_neg (by omega)]
      exact slot_out_of_range tcs j hj1

/-- Witness for C1 on a concrete three-delta sequence. -/
theorem c1_delta_aggregation_witness :
    monotoneIndices
      [({ index := 0, id := "a", type := "function", functionName := "li",
          functionArguments := "xy" } : ToolCallDelta),
       { index := 0, id := "", type := "", functionName := "st", functionArguments := "z" },
       { index := 1, id := "b", type := "function", functionName := "rf",
         functionArguments := "w" }]
    ∧ (slot (aggregateDeltas []
        [({ index := 0, id := "a", type := "function", functionName := "li",
            functionArguments := "xy" } : ToolCallDelta),
         { index := 0, id := "", type := "", functionName := "st", functionArguments := "z" },
         { index := 1, id := "b", type := "function", functionName := "rf",
           functionArguments := "w" }]) 0).functionArguments
        = concatArgsAt 0
            [({ index := 0, id := "a", type := "function", functionName := "li",
                functionArguments := "xy" } : ToolCallDelta),
             { index := 0, id := "", type := "", functionName := "st",
               functionArguments := "z" },
             { index := 1, id := "b", type := "function", functionName := "rf",
               functionArguments := "w" }] := by
  refine ⟨by decide, ?_⟩
  exact ((c1_delta_aggregation
    [({ index := 0, id := "a", type := "function", functionName := "li",
        functionArguments := "xy" } : ToolCallDelta),
     { index := 0, id := "", type := "", functionName := "st", functionArguments := "z" },
     { index := 1, id := "b", type := "function", functionName := "rf",
       functionArguments := "w" }] (by decide)).1 0).1

/-! ## Claim C3: setup failures -/

/-- C3: a request that fails during setup (marshalling, request construction,
transport, or a status other than 200) pushes exactly one `ErrorMsg` and
nothing else — in particular neither `StreamStart` nor `StreamEnd`. -/
theorem c3_setup_failure_single_error (env : ClientEnv) (future : List SetupResult)
    (messages : List Message) (setup : SetupResult)
    (h : isSetupFailure setup = true) :
    (∃ e, runCompletionStream env (setup :: future) messages = [Event.errorMsg e])
    ∧ Event.streamStart ∉ runCompletionStream env (setup :: future) messages
    ∧ Event.streamEnd ∉ runCompletionStream env (setup :: future) messages := by
  have hrun : ∃ e, runCompletionStream env (setup :: future) messages = [Event.errorMsg e] := by
    cases setup with
    | marshalError e => exact ⟨_, rfl⟩
    | newRequestError e => exact ⟨_, rfl⟩
    | doError e => exact ⟨_, rfl⟩
    | response status errBody lines readEnd =>
      have hs : status ≠ 200 := by simpa [isSetupFailure] using h
      refine ⟨statusErrorText status errBody, ?_⟩
      simp [runCompletionStream, if_pos hs, hs]
  obtain ⟨e, he⟩ := hrun
  refine ⟨⟨e, he⟩, ?_, ?_⟩ <;> rw [he] <;> simp

/-- Witness for C3: a serialization failure yields the single error event. -/
theorem c3_setup_failure_witness :
    isSetupFailure (SetupResult.marshalError "m") = true
    ∧ ∃ e, runCompletionStream
        { registry := fun _ => false, exec := fun _ _ => ExecResult.ok "" }
        [SetupResult.marshalError "m"] [] = [Event.errorMsg e] :=
  ⟨rfl, (c3_setup_failure_single_error
    { registry := fun _ => false, exec := fun _ _ => ExecResult.ok "" }
    [] [] (SetupResult.marshalError "m") rfl).1⟩

/-! ## Claim C10: the client's internal tool loop -/

/-- C10: the client's internal tool-execution loop appends exactly one
tool-role message per call whose name is in the registry, in batch order; a
call whose name is not registered contributes no message and does not stop
the remaining calls from being resolved and executed. -/
theorem c10_unregistered_tool_skipped (env : ClientEnv) (msgs : List Message)
    (batch : List ToolCall) :
    execToolCalls env msgs batch
      = msgs ++ (batch.filter (fun tc => env.registry tc.functionName)).map
          (clientToolResult env) := by
  induction batch generalizing msgs with
  | nil => simp [execToolCalls]
  | cons tc rest ih =>
    by_cases h : env.registry tc.functionName
    · rw [show execToolCalls env msgs (tc :: rest)
          = execToolCalls env (msgs ++ [clientToolResult env tc]) rest from by
            rw [execToolCalls, if_pos h],
        ih]
      simp [List.filter_cons, h]
    · rw [show execToolCalls env msgs (tc :: rest) = execToolCalls env msgs rest from by
            rw [execToolCalls, if_neg h],
        ih]
      simp [List.filter_cons, h]

/-! ## Claims C2 and C4: the spec-modelled agent-era client -/

theorem runSpec_response_200 (errBody : String) (lines : List ReadLine) (readEnd : ReadEnd) :
    runCompletionStreamSpec (SetupResult.response 200 errBody lines readEnd)
      = [Event.streamStart] ++ (processLines [] "" lines).events
        ++ (if (processLines [] "" lines).sawDone then []
            else match readEnd with
              | .eof => []
              | .readError e => [Event.errorMsg ("error reading stream: " ++ e)])
        ++ (if (processLines [] "" lines).toolCalls.isEmpty then []
            else [Event.assistantToolCall
                { role := "assistant", content := "",
                  toolCalls := (processLines [] "" lines).toolCalls, toolCallId := "" }])
        ++ [Event.streamEnd] := rfl

theorem runSpec_response_200_readError (errBody e : String) (lines : List ReadLine)
    (hdone : (processLines [] "" lines).sawDone = false) :
    runCompletionStreamSpec (SetupResult.response 200 errBody lines (ReadEnd.readError e))
      = [Event.streamStart] ++ (processLines [] "" lines).events
        ++ [Event.errorMsg ("error reading stream: " ++ e)]
        ++ (if (processLines [] "" lines).toolCalls.isEmpty then []
            else [Event.assistantToolCall
                { role := "assistant", content := "",
                  toolCalls := (processLines [] "" lines).toolCalls, toolCallId := "" }])
        ++ [Event.streamEnd] := by
  rw [runSpec_response_200, if_neg (by simp [hdone])]

/-- C2: for a run whose setup succeeds (status 200), if the read loop left one
or more populated tool-call builders then the emitted events contain exactly
one `AssistantToolCallMsg`, it carries the synthetic assistant message (empty
content, the aggregated array as `toolCalls`), it is the second-to-last event,
and the last event is always `StreamEnd`.  (Settled against the spec-modelled
agent-era client `runCompletionStreamSpec`; its Go source is not among the
provided files.) -/
theorem c2_tool_request_then_stream_end (errBody : String) (lines : List ReadLine)
    (readEnd : ReadEnd) :
    ((processLines [] "" lines).toolCalls ≠ [] →
        (runCompletionStreamSpec (SetupResult.response 200 errBody lines readEnd)).countP
            isAssistantToolCallEvent = 1
      ∧ (runCompletionStreamSpec
            (SetupResult.response 200 errBody lines readEnd)).dropLast.getLast?
          = some (Event.assistantToolCall
              { role := "assistant", content := "",
                toolCalls := (processLines [] "" lines).toolCalls, toolCallId := "" }))
    ∧ (runCompletionStreamSpec (SetupResult.response 200 errBody lines readEnd)).getLast?
        = some Event.streamEnd := by
  rw [runSpec_response_200]
  constructor
  · intro hne
    have hemp : (processLines [] "" lines).toolCalls.isEmpty = false := by
      simpa [List.isEmpty_iff] using hne
    rw [if_neg (show ¬ ((processLines [] "" lines).toolCalls.isEmpty = true) by
      simp [hemp])]
    constructor
    · rw [List.countP_append, List.countP_append, List.countP_append, List.countP_append,
        processLines_events_countP lines [] "" _ (fun s => rfl)]
      have hend : (if (processLines [] "" lines).sawDone then []
          else match readEnd with
            | .eof => []
            | .readError e =>
              [Event.errorMsg ("error reading stream: " ++ e)]).countP
              isAssistantToolCallEvent = 0 := by
        split
        · rfl
        · cases readEnd <;> rfl
      rw [hend]
      rfl
    · rw [List.dropLast_concat, List.getLast?_concat]
  · rw [List.getLast?_concat]

/-- Witness for C2 on a one-line stream carrying a single tool-call delta. -/
theorem c2_tool_request_witness :
    (processLines [] ""
        [{ raw := "data: x", parsed := some { choices :=
            [{ deltaContent := "", deltaToolCalls :=
                [{ index := 0, id := "c1", type := "function", functionName := "ld",
                   functionArguments := "ab" }], finishReason := "tool_calls" }] } }]).toolCalls
      ≠ []
    ∧ (runCompletionStreamSpec (SetupResult.response 200 ""
        [{ raw := "data: x", parsed := some { choices :=
            [{ deltaContent := "", deltaToolCalls :=
                [{ index := 0, id := "c1", type := "function", functionName := "ld",
                   functionArguments := "ab" }], finishReason := "tool_calls" }] } }]
        ReadEnd.eof)).countP isAssistantToolCallEvent = 1
    ∧ (runCompletionStreamSpec (SetupResult.response 200 ""
        [{ raw := "data: x", parsed := some { choices :=
            [{ deltaContent := "", deltaToolCalls :=
                [{ index := 0, id := "c1", type := "function", functionName := "ld",
                   functionArguments := "ab" }], finishReason := "tool_calls" }] } }]
        ReadEnd.eof)).getLast? = some Event.streamEnd := by
  refine ⟨by decide, ?_, ?_⟩
  · exact ((c2_tool_request_then_stream_end ""
      [{ raw := "data: x", parsed := some { choices :=
          [{ deltaContent := "", deltaToolCalls :=
              [{ index := 0, id := "c1", type := "function", functionName := "ld",
                 functionArguments := "ab" }], finishReason := "tool_calls" }] } }]
      ReadEnd.eof).1 (by decide)).1
  · exact (c2_tool_request_then_stream_end ""
      [{ raw := "data: x", parsed := some { choices :=
          [{ deltaContent := "", deltaToolCalls :=
              [{ index := 0, id := "c1", type := "function", functionName := "ld",
                 functionArguments := "ab" }], finishReason := "tool_calls" }] } }]
      ReadEnd.eof).2

/-- C4: a mid-stream read failure (the reader ends with a non-EOF error and
the loop did not already exit through `[DONE]`) is surfaced as exactly one
`ErrorMsg`, yet the run still evaluates the accumulated tool calls (emitting
the `AssistantToolCallMsg` when builders were populated) and still ends with
`StreamEnd`.  (Settled against the spec-modelled agent-era client
`runCompletionStreamSpec`; its Go source is not among the provided files.) -/
theorem c4_midstream_read_error_nonfatal (errBody e : String) (lines : List ReadLine)
    (hdone : (processLines [] "" lines).sawDone = false) :
    (runCompletionStreamSpec
        (SetupResult.response 200 errBody lines (ReadEnd.readError e))).countP isErrorEvent = 1
    ∧ Event.errorMsg ("error reading stream: " ++ e)
        ∈ runCompletionStreamSpec (SetupResult.response 200 errBody lines (ReadEnd.readError e))
    ∧ (runCompletionStreamSpec
        (SetupResult.response 200 errBody lines (ReadEnd.readError e))).getLast?
        = some Event.streamEnd
    ∧ ((processLines [] "" lines).toolCalls ≠ [] →
        Event.assistantToolCall
            { role := "assistant", content := "",
              toolCalls := (processLines [] "" lines).toolCalls, toolCallId := "" }
          ∈ runCompletionStreamSpec
              (SetupResult.response 200 errBody lines (ReadEnd.readError e))) := by
  rw [runSpec_response_200_readError errBody e lines hdone]
  refine ⟨?_, ?_, ?_, ?_⟩
  · rw [List.countP_append, List.countP_append, List.countP_append, List.countP_append,
      processLines_events_countP lines [] "" _ (fun s => rfl)]
    have htool : (if (processLines [] "" lines).toolCalls.isEmpty then []
        else [Event.assistantToolCall
            { role := "assistant", content := "",
              toolCalls := (processLines [] "" lines).toolCalls,
              toolCallId := "" }]).countP isErrorEvent = 0 := by
      split <;> rfl
    rw [htool]
    rfl
  · simp
  · rw [List.getLast?_concat]
  · intro hne
    have hemp : (processLines [] "" lines).toolCalls.isEmpty = false := by
      simpa [List.isEmpty_iff] using hne
    rw [if_neg (show ¬ ((processLines [] "" lines).toolCalls.isEmpty = true) by
      simp [hemp])]
    simp

/-- Witness for C4 on a stream that fails before producing any line. -/
theorem c4_midstream_witness :
    (processLines [] "" ([] : List ReadLine)).sawDone = false
    ∧ (runCompletionStreamSpec
        (SetupResult.response 200 "b" [] (ReadEnd.readError "x"))).countP isErrorEvent = 1
    ∧ (runCompletionStreamSpec
        (SetupResult.response 200 "b" [] (ReadEnd.readError "x"))).getLast?
        = some Event.streamEnd :=
  ⟨rfl, (c4_midstream_read_error_nonfatal "b" "x" [] rfl).1,
    (c4_midstream_read_error_nonfatal "b" "x" [] rfl).2.2.1⟩

/-! ## Agent lemmas -/

theorem processToolCalls_messages (env : AgentEnv) (a : Agent) :
    (processToolCalls env a).1.messages = a.messages := by
  unfold processToolCalls
  split
  · rfl
  · split
    · rfl
    · split
      · rfl
      · rfl

theorem processToolCalls_empty_queue (env : AgentEnv) (a : Agent)
    (h : a.pendingToolCalls = []) :
    processToolCalls env a = (a, AgentCmd.completionStream a.messages) := by
  unfold processToolCalls
  rw [h]

/-! ## Claim C6: registry miss halts the queue -/

/-- C6: when the head of the pending queue names a tool absent from the
registry, `processToolCalls` returns an error command and leaves the agent
state — history, queue, head call included — completely untouched, so no
later call of the batch executes. -/
theorem c6_registry_miss_halts (env : AgentEnv) (a : Agent) (tc : ToolCall)
    (rest : List ToolCall) (hq : a.pendingToolCalls = tc :: rest)
    (hmiss : env.registry tc.functionName = none) :
    processToolCalls env a
      = (a, AgentCmd.errorMsg ("tool " ++ tc.functionName ++ " not found in registry")) := by
  unfold processToolCalls
  rw [hq]
  simp [hmiss]

/-- Witness for C6 with a two-call batch headed by an unregistered name. -/
theorem c6_registry_miss_witness :
    processToolCalls
        { registry := fun _ => none, exec := fun _ _ => ExecResult.ok "" }
        { messages := [],
          pendingToolCalls :=
            [{ id := "c1", type := "function", functionName := "mystery",
               functionArguments := "" },
             { id := "c2", type := "function", functionName := "read_file",
               functionArguments := "" }],
          confirmingToolCall := ToolCall.empty, isConfirming := false,
          lastStreamedContent := "" }
      = ({ messages := [],
           pendingToolCalls :=
             [{ id := "c1", type := "function", functionName := "mystery",
                functionArguments := "" },
              { id := "c2", type := "function", functionName := "read_file",
                functionArguments := "" }],
           confirmingToolCall := ToolCall.empty, isConfirming := false,
           lastStreamedContent := "" },
         AgentCmd.errorMsg ("tool " ++ "mystery" ++ " not found in registry")) :=
  c6_registry_miss_halts
    { registry := fun _ => none, exec := fun _ _ => ExecResult.ok "" }
    { messages := [],
      pendingToolCalls :=
        [{ id := "c1", type := "function", functionName := "mystery",
           functionArguments := "" },
         { id := "c2", type := "function", functionName := "read_file",
           functionArguments := "" }],
      confirmingToolCall := ToolCall.empty, isConfirming := false,
      lastStreamedContent := "" }
    { id := "c1", type := "function", functionName := "mystery", functionArguments := "" }
    [{ id := "c2", type := "function", functionName := "read_file", functionArguments := "" }]
    rfl rfl

/-! ## Claim C5: confirmation denial -/

/-- C5: denying a confirmation appends exactly the tool-role message with the
remembered call's id and the content `"User denied execution of tool: <name>"`
to history, and the denial is fed through the standard queue continuation:
with an exhausted queue the model is re-invoked on the updated history, and
otherwise the next queued call is processed. -/
theorem c5_confirmation_denial (env : AgentEnv) (a : Agent)
    (_hconf : a.isConfirming = true) (_hq : a.pendingToolCalls ≠ []) :
    HandleConfirmation env a false
      = processToolCalls env
          { a with isConfirming := false,
                   pendingToolCalls := a.pendingToolCalls.tail,
                   messages := a.messages ++
                     [{ role := "tool",
                        content := "User denied execution of tool: "
                          ++ a.confirmingToolCall.functionName,
                        toolCalls := [],
                        toolCallId := a.confirmingToolCall.id }] }
    ∧ (HandleConfirmation env a false).1.messages
        = a.messages ++
            [{ role := "tool",
               content := "User denied execution of tool: "
                 ++ a.confirmingToolCall.functionName,
               toolCalls := [], toolCallId := a.confirmingToolCall.id }]
    ∧ (a.pendingToolCalls.tail = [] →
        (HandleConfirmation env a false).2
          = AgentCmd.completionStream (a.messages ++
              [{ role := "tool",
                 content := "User denied execution of tool: "
                   ++ a.confirmingToolCall.functionName,
                 toolCalls := [], toolCallId := a.confirmingToolCall.id }])) := by
  have h1 : HandleConfirmation env a false
      = processToolCalls env
          { a with isConfirming := false,
                   pendingToolCalls := a.pendingToolCalls.tail,
                   messages := a.messages ++
                     [{ role := "tool",
                        content := "User denied execution of tool: "
                          ++ a.confirmingToolCall.functionName,
                        toolCalls := [],
                        toolCallId := a.confirmingToolCall.id }] } := rfl
  refine ⟨h1, ?_, ?_⟩
  · rw [h1, processToolCalls_messages]
  · intro ht
    rw [h1, processToolCalls_empty_queue env _ (by exact ht)]

/-- Witness for C5: denying the only queued confirmation-requiring call
appends the denial message and re-invokes the model. -/
theorem c5_confirmation_denial_witness :
    (HandleConfirmation
        { registry := fun _ => some { requiresConfirmation := true },
          exec := fun _ _ => ExecResult.ok "" }
        { messages := [],
          pendingToolCalls :=
            [{ id := "c1", type := "function", functionName := "write_file",
               functionArguments := "" }],
          confirmingToolCall :=
            { id := "c1", type := "function", functionName := "write_file",
              functionArguments := "" },
          isConfirming := true, lastStreamedContent := "" }
        false).1.messages
      = [{ role := "tool",
           content := "User denied execution of tool: " ++ "write_file",
           toolCalls := [], toolCallId := "c1" }] :=
  (c5_confirmation_denial
    { registry := fun _ => some { requiresConfirmation := true },
      exec := fun _ _ => ExecResult.ok "" }
    { messages := [],
      pendingToolCalls :=
        [{ id := "c1", type := "function", functionName := "write_file",
           functionArguments := "" }],
      confirmingToolCall :=
        { id := "c1", type := "function", functionName := "write_file",
          functionArguments := "" },
      isConfirming := true, lastStreamedContent := "" }
    rfl (by simp)).2.1

/-! ## Claim C7: execution failure becomes a textual tool result -/

/-- C7: when `Execute` fails, `executeTool` produces the result text
`"Error executing tool <name>: <err>"` under the call's id, and
`HandleToolResult` appends any result — failure text or success text alike —
as a tool-role message and continues with the standard queue processing. -/
theorem c7_execution_failure_textual (env : AgentEnv) (a : Agent) (tc : ToolCall)
    (e : String)
    (hfail : env.exec tc.functionName tc.functionArguments = ExecResult.err e) :
    executeTool env tc
      = { toolCallId := tc.id,
          result := "Error executing tool " ++ tc.functionName ++ ": " ++ e }
    ∧ ∀ result : String, HandleToolResult env a tc.id result
        = processToolCalls env
            { a with messages := a.messages ++
                [{ role := "tool", content := result, toolCalls := [],
                   toolCallId := tc.id }] } := by
  refine ⟨?_, fun result => rfl⟩
  unfold executeTool
  rw [hfail]

/-- Witness for C7 on a tool whose execution fails. -/
theorem c7_execution_failure_witness :
    executeTool
        { registry := fun _ => some { requiresConfirmation := false },
          exec := fun _ _ => ExecResult.err "boom" }
        { id := "c1", type := "function", functionName := "read_file",
          functionArguments := "p" }
      = { toolCallId := "c1",
          result := "Error executing tool " ++ "read_file" ++ ": " ++ "boom" } :=
  (c7_execution_failure_textual
    { registry := fun _ => some { requiresConfirmation := false },
      exec := fun _ _ => ExecResult.err "boom" }
    { messages := [], pendingToolCalls := [], confirmingToolCall := ToolCall.empty,
      isConfirming := false, lastStreamedContent := "" }
    { id := "c1", type := "function", functionName := "read_file",
      functionArguments := "p" }
    "boom" rfl).1

/-! ## Claim C9: queue state at confirmation time -/

/-- Counterexample to C9 as stated: with a single confirmation-requiring call
queued, `processToolCalls` enters the confirmation state
(`isConfirming = true`, `ConfirmationRequiredMsg` emitted) while the call is
still at the head of `pendingToolCalls` — it has not been removed from the
queue at the time the orchestrator enters `AwaitingConfirmation`. -/
theorem c9_counterexample :
    (processToolCalls
        { registry := fun n => if n = "write_file"
            then some { requiresConfirmation := true } else none,
          exec := fun _ _ => ExecResult.ok "" }
        { messages := [],
          pendingToolCalls :=
            [{ id := "c1", type := "function", functionName := "write_file",
               functionArguments := "" }],
          confirmingToolCall := ToolCall.empty, isConfirming := false,
          lastStreamedContent := "" }).2
      = AgentCmd.confirmationRequired
          { id := "c1", type := "function", functionName := "write_file",
            functionArguments := "" }
    ∧ (processToolCalls
        { registry := fun n => if n = "write_file"
            then some { requiresConfirmation := true } else none,
          exec := fun _ _ => ExecResult.ok "" }
        { messages := [],
          pendingToolCalls :=
            [{ id := "c1", type := "function", functionName := "write_file",
               functionArguments := "" }],
          confirmingToolCall := ToolCall.empty, isConfirming := false,
          lastStreamedContent := "" }).1.isConfirming = true
    ∧ (processToolCalls
        { registry := fun n => if n = "write_file"
            then some { requiresConfirmation := true } else none,
          exec := fun _ _ => ExecResult.ok "" }
        { messages := [],
          pendingToolCalls :=
            [{ id := "c1", type := "function", functionName := "write_file",
               functionArguments := "" }],
          confirmingToolCall := ToolCall.empty, isConfirming := false,
          lastStreamedContent := "" }).1.pendingToolCalls
      = [{ id := "c1", type := "function", functionName := "write_file",
           functionArguments := "" }] :=
  ⟨rfl, rfl, rfl⟩

/-- C9 amended: entering `AwaitingConfirmation` records the call as
`confirmingToolCall` and leaves it at the queue head; it is
`HandleConfirmation` itself that removes the head from the queue at
confirmation-resolution time and, on `confirm(true)`, executes the remembered
call. -/
theorem c9_confirmation_queue_pop (env : AgentEnv) (a : Agent) (tc : ToolCall)
    (ts : ToolSpec) (rest : List ToolCall)
    (hq : a.pendingToolCalls = tc :: rest)
    (hreg : env.registry tc.functionName = some ts)
    (hconf : ts.requiresConfirmation = true) :
    processToolCalls env a
      = ({ a with confirmingToolCall := tc, isConfirming := true },
         AgentCmd.confirmationRequired tc)
    ∧ (HandleConfirmation env
        { a with confirmingToolCall := tc, isConfirming := true } true).1.pendingToolCalls
        = rest
    ∧ (HandleConfirmation env
        { a with confirmingToolCall := tc, isConfirming := true } true).2
        = AgentCmd.toolResult (executeTool env tc) := by
  refine ⟨?_, ?_, rfl⟩
  · unfold processToolCalls
    rw [hq]
    simp [hreg, hconf]
  · show a.pendingToolCalls.tail = rest
    rw [hq]
    rfl

/-- Witness for C9's amended statement on a two-call queue. -/
theorem c9_confirmation_queue_pop_witness :
    (HandleConfirmation
        { registry := fun n => if n = "write_file"
            then some { requiresConfirmation := true } else none,
          exec := fun _ _ => ExecResult.ok "" }
        { messages := [],
          pendingToolCalls :=
            [{ id := "c1", type := "function", functionName := "write_file",
               functionArguments := "" },
             { id := "c2", type := "function", functionName := "write_file",
               functionArguments := "" }],
          confirmingToolCall :=
            { id := "c1", type := "function", functionName := "write_file",
              functionArguments := "" },
          isConfirming := true, lastStreamedContent := "" }
        true).1.pendingToolCalls
      = [{ id := "c2", type := "function", functionName := "write_file",
           functionArguments := "" }] :=
  (c9_confirmation_queue_pop
    { registry := fun n => if n = "write_file"
        then some { requiresConfirmation := true } else none,
      exec := fun _ _ => ExecResult.ok "" }
    { messages := [],
      pendingToolCalls :=
        [{ id := "c1", type := "function", functionName := "write_file",
           functionArguments := "" },
         { id := "c2", type := "function", functionName := "write_file",
           functionArguments := "" }],
      confirmingToolCall :=
        { id := "c1", type := "function", functionName := "write_file",
          functionArguments := "" },
      isConfirming := true, lastStreamedContent := "" }
    { id := "c1", type := "function", functionName := "write_file",
      functionArguments := "" }
    { requiresConfirmation := true }
    [{ id := "c2", type := "function", functionName := "write_file",
       functionArguments := "" }]
    rfl rfl rfl).2.1

/-! ## Claim C8: history is append-only -/

theorem last_some_pos {l : List Message} {m : Message}
    (hm : l[l.length - 1]? = some m) : 0 < l.length := by
  rcases Nat.eq_zero_or_pos l.length with h0 | h0
  · rw [List.length_eq_zero.mp h0] at hm
    simp at hm
  · exact h0

theorem messageEvolves_refl (m : Message) : MessageEvolves m m :=
  ⟨rfl, rfl, List.prefix_refl _⟩

theorem messageEvolves_trans {m1 m2 m3 : Message} (h1 : MessageEvolves m1 m2)
    (h2 : MessageEvolves m2 m3) : MessageEvolves m1 m3 :=
  ⟨h2.1.trans h1.1, h2.2.1.trans h1.2.1, h1.2.2.trans h2.2.2⟩

theorem historyExtends_refl (l : List Message) : HistoryExtends l l :=
  ⟨le_refl _, fun _ _ => rfl, fun m hm => ⟨m, hm, messageEvolves_refl m⟩⟩

theorem historyExtends_append (l t : List Message) : HistoryExtends l (l ++ t) := by
  refine ⟨by simp, ?_, ?_⟩
  · intro i hi
    rw [List.getElem?_append, if_pos (by omega)]
  · intro m hm
    have hpos := last_some_pos hm
    exact ⟨m, by rw [List.getElem?_append, if_pos (by omega)]; exact hm,
      messageEvolves_refl m⟩

theorem historyExtends_set_last {l : List Message} {last updated : Message}
    (hm : l[l.length - 1]? = some last) (hev : MessageEvolves last updated) :
    HistoryExtends l (l.set (l.length - 1) updated) := by
  have hpos := last_some_pos hm
  refine ⟨by simp, ?_, ?_⟩
  · intro i hi
    rw [List.getElem?_set_ne (by omega)]
  · intro m2 hm2
    have heq : last = m2 := by
      rw [hm] at hm2
      exact Option.some.inj hm2
    exact ⟨updated, by rw [List.getElem?_set_self (by omega)], heq ▸ hev⟩

theorem historyExtends_trans {l1 l2 l3 : List Message}
    (h1 : HistoryExtends l1 l2) (h2 : HistoryExtends l2 l3) :
    HistoryExtends l1 l3 := by
  obtain ⟨hl1, hmid1, hlast1⟩ := h1
  obtain ⟨hl2, hmid2, hlast2⟩ := h2
  refine ⟨hl1.trans hl2, ?_, ?_⟩
  · intro i hi
    rw [hmid2 i (by omega), hmid1 i hi]
  · intro m hm
    obtain ⟨m2, hm2, hev⟩ := hlast1 m hm
    have hpos := last_some_pos hm
    by_cases hlen : l1.length = l2.length
    · have hm2b : l2[l2.length - 1]? = some m2 := by
        rw [← hlen]
        exact hm2
      obtain ⟨m3, hm3, hev2⟩ := hlast2 m2 hm2b
      refine ⟨m3, ?_, messageEvolves_trans hev hev2⟩
      rw [hlen]
      exact hm3
    · have hlt : l1.length < l2.length := lt_of_le_of_ne hl1 hlen
      refine ⟨m2, ?_, hev⟩
      rw [hmid2 (l1.length - 1) (by omega)]
      exact hm2

theorem applyOp_historyExtends (env : AgentEnv) (a : Agent) (op : AgentOp) :
    HistoryExtends a.messages (applyOp env a op).messages := by
  cases op with
  | userInput s =>
    exact historyExtends_append a.messages _
  | streamStart =>
    exact historyExtends_append a.messages _
  | streamContent s =>
    show HistoryExtends a.messages (HandleStreamContent a s).messages
    unfold HandleStreamContent
    by_cases hlen : 0 < a.messages.length
    · rw [if_pos hlen]
      have hm : a.messages[a.messages.length - 1]?
          = some (a.messages.getD (a.messages.length - 1) msgDefault) := by
        have hlt : a.messages.length - 1 < a.messages.length := by omega
        rw [List.getD_eq_getElem?_getD, List.getElem?_eq_getElem hlt]
        rfl
      have hev : MessageEvolves (a.messages.getD (a.messages.length - 1) msgDefault)
          { a.messages.getD (a.messages.length - 1) msgDefault with
            content := (a.messages.getD (a.messages.length - 1) msgDefault).content ++ s } := by
        refine ⟨rfl, rfl, ?_⟩
        rw [String.data_append]
        exact List.prefix_append _ _
      exact historyExtends_set_last hm hev
    · rw [if_neg hlen]
      exact historyExtends_refl a.messages
  | toolCallRequest m =>
    show HistoryExtends a.messages (HandleToolCallRequest env a m).1.messages
    unfold HandleToolCallRequest
    rw [processToolCalls_messages]
    by_cases hc : 0 < a.messages.length
        ∧ (a.messages.getD (a.messages.length - 1) msgDefault).role = "assistant"
    · rw [if_pos hc]
      have h0 := hc.1
      have hm : a.messages[a.messages.length - 1]?
          = some (a.messages.getD (a.messages.length - 1) msgDefault) := by
        have hlt : a.messages.length - 1 < a.messages.length := by omega
        rw [List.getD_eq_getElem?_getD, List.getElem?_eq_getElem hlt]
        rfl
      have hev : MessageEvolves (a.messages.getD (a.messages.length - 1) msgDefault)
          { a.messages.getD (a.messages.length - 1) msgDefault with
            toolCalls := m.toolCalls } :=
        ⟨rfl, rfl, List.prefix_refl _⟩
      exact historyExtends_set_last hm hev
    · rw [if_neg hc]
      exact historyExtends_append a.messages _
  | toolResult id r =>
    show HistoryExtends a.messages (HandleToolResult env a id r).1.messages
    unfold HandleToolResult
    rw [processToolCalls_messages]
    exact historyExtends_append a.messages _
  | confirmation b =>
    show HistoryExtends a.messages (HandleConfirmation env a b).1.messages
    cases b with
    | true => exact historyExtends_refl a.messages
    | false =>
      show HistoryExtends a.messages
        (HandleToolResult env
          { a with isConfirming := false,
                   pendingToolCalls := a.pendingToolCalls.tail }
          a.confirmingToolCall.id
          ("User denied execution of tool: "
            ++ a.confirmingToolCall.functionName)).1.messages
      unfold HandleToolResult
      rw [processToolCalls_messages]
      exact historyExtends_append a.messages _

/-- C8: across any sequence of orchestrator operations (user input, stream
start, content chunk, tool-call request, tool result, confirmation) the
history only grows: no entry is removed or reordered, every entry but the
last is preserved verbatim, and the last entry changes only by having text
appended to its content or tool calls attached (role and `toolCallId` are
frozen). -/
theorem c8_history_append_only (env : AgentEnv) (ops : List AgentOp) (a : Agent) :
    HistoryExtends a.messages ((ops.foldl (applyOp env) a)).messages := by
  induction ops generalizing a with
  | nil => exact historyExtends_refl _
  | cons op rest ih =>
    exact historyExtends_trans (applyOp_historyExtends env a op) (ih (applyOp env a op))

end GhOst
